import Mathlib

/-!
Verification development for the `ptui` terminal client
(`src/main.rs`, `src/text.rs`).

The Rust code is shallowly embedded: Rust `String` is modelled as the
list of its Unicode scalar values (`List Char`) together with explicit
UTF-8 byte arithmetic, since the source indexes strings by byte offset;
`usize` subtraction that can underflow, and `String` operations that can
panic on invalid byte indices, are modelled as `Option`-valued functions
where `none` means the Rust code panics (debug builds; release builds
wrap, which is just as wrong for the properties below).

The event loop (`run_app`) is embedded as a step function from a state
and one input event to either a continuation state or a quit, with the
external collaborators (the pcli backend API, the token store, the
configuration loader, and the `tui_textarea` widget) supplied as an
explicit record of oracle functions (`Externals`).  Log macro calls
(`debug!`/`info!`/`warn!`/`error!`) are modelled as appending the
formatted message to a `log` field of the state, so that "reported to
the log" becomes a provable statement.
-/

set_option maxHeartbeats 1000000

/-! ## UTF-8 byte arithmetic (Rust `String` is byte indexed) -/

/-- Number of bytes of the UTF-8 encoding of a Unicode scalar value;
mirrors Rust `char::len_utf8`. -/
def utf8Len (c : Char) : Nat :=
  if c.val < 0x80 then 1
  else if c.val < 0x800 then 2
  else if c.val < 0x10000 then 3
  else 4

/-- Byte length of a string (Rust `String::len`), the string being the
list of its Unicode scalar values. -/
def byteLen (s : List Char) : Nat := s.foldr (fun c n => utf8Len c + n) 0

/-- Split a string at a byte offset.  Returns `some (p, q)` when the
offset is a character boundary not exceeding the byte length (the
prefix `p` encodes in exactly `i` bytes); `none` otherwise, i.e. when a
Rust byte-indexed string operation at this offset would panic. -/
def splitAtByte : List Char → Nat → Option (List Char × List Char)
  | s, 0 => some ([], s)
  | [], _ + 1 => none
  | c :: cs, n + 1 =>
    if utf8Len c ≤ n + 1 then
      (splitAtByte cs (n + 1 - utf8Len c)).map (fun p => (c :: p.1, p.2))
    else none

/-- Rust `String::insert_str(idx, s2)`: panics (`none`) unless `idx` is a
character boundary `≤` the byte length. -/
def insertStrAt (s : List Char) (idx : Nat) (s2 : List Char) : Option (List Char) :=
  (splitAtByte s idx).map fun p => p.1 ++ s2 ++ p.2

/-- Rust `String::insert(idx, c)`. -/
def insertCharAt (s : List Char) (idx : Nat) (c : Char) : Option (List Char) :=
  insertStrAt s idx [c]

/-- Rust `String::remove(idx)`: panics (`none`) unless `idx` is a
character boundary strictly below the byte length; removes the character
starting at byte `idx`. -/
def removeAt (s : List Char) (idx : Nat) : Option (List Char) :=
  match splitAtByte s idx with
  | some (p, _ :: q) => some (p ++ q)
  | _ => none

/-! ## `src/text.rs`: `TextField` -/

/-- `TextFieldError` from `src/text.rs`. -/
inductive TextFieldError where
  | invalidIndexPosition
deriving DecidableEq, Repr

/-- `TextField` from `src/text.rs`: `text: String`, `index: usize`.
`text` is the list of Unicode scalar values of the Rust `String`;
`index` is a byte offset into its UTF-8 encoding, exactly as in the
source. -/
structure TextField where
  text : List Char
  index : Nat
deriving DecidableEq, Repr

/-- `TextField::new`. -/
def TextField.new : TextField := ⟨[], 0⟩

/-- `TextField::set_text`: replace contents, cursor to byte length. -/
def TextField.set_text (t : TextField) (s : List Char) : TextField :=
  { t with text := s, index := byteLen s }

/-- `TextField::is_empty`. -/
def TextField.is_empty (t : TextField) : Bool := t.text.isEmpty

/-- `TextField::set_index`: `Ok` iff the requested index is `≤` the byte
length (the `index >= 0` half of the source guard is vacuous for
`usize`). -/
def TextField.set_index (t : TextField) (i : Nat) : Except TextFieldError TextField :=
  if i ≤ byteLen t.text then .ok { t with index := i }
  else .error .invalidIndexPosition

/-- `TextField::clear`. -/
def TextField.clear (t : TextField) : TextField := { t with text := [], index := 0 }

/-- `TextField::append_character`: push the character, then `set_text`
(which already moves the cursor to the end), then set the cursor to the
end again. -/
def TextField.append_character (t : TextField) (c : Char) : TextField :=
  let t := t.set_text (t.text ++ [c])
  { t with index := byteLen t.text }

/-- `TextField::append_string`. -/
def TextField.append_string (t : TextField) (s2 : List Char) : TextField :=
  let t := t.set_text (t.text ++ s2)
  { t with index := byteLen t.text }

/-- `TextField::insert_character`: `String::insert` at the cursor byte
offset, then `index += 1` (one byte, even for a multi-byte character —
as in the source). `none` models the panic of `String::insert` on an
invalid offset. -/
def TextField.insert_character (t : TextField) (c : Char) : Option TextField :=
  (insertCharAt t.text t.index c).map fun s => { t with text := s, index := t.index + 1 }

/-- `TextField::insert_string`: `String::insert_str` at the cursor byte
offset; the cursor is not moved. -/
def TextField.insert_string (t : TextField) (s2 : List Char) : Option TextField :=
  (insertStrAt t.text t.index s2).map fun s => { t with text := s }

/-- `TextField::left`. -/
def TextField.left (t : TextField) : TextField :=
  if 0 < t.index then { t with index := t.index - 1 } else t

/-- `TextField::right`. -/
def TextField.right (t : TextField) : TextField :=
  if t.index < byteLen t.text then { t with index := t.index + 1 } else t

/-- `TextField::delete`: guarded by `text.len() > 0` (byte length), then
`String::remove` at the cursor byte offset; `none` models the panic of
`String::remove` when the cursor equals the byte length of a non-empty
buffer or sits inside a multi-byte character. -/
def TextField.delete (t : TextField) : Option TextField :=
  if 0 < byteLen t.text then (removeAt t.text t.index).map fun s => { t with text := s }
  else some t

/-- `TextField::backspace`: if `index > 0`, move left then delete. -/
def TextField.backspace (t : TextField) : Option TextField :=
  if 0 < t.index then t.left.delete else some t

/-- `TextField::end` (renamed: `end` is a Lean keyword): cursor to the
byte length. -/
def TextField.end_ (t : TextField) : TextField := { t with index := byteLen t.text }

/-- `TextField::home`. -/
def TextField.home (t : TextField) : TextField := { t with index := 0 }

/-- One successful `TextField` operation (a panicking call, i.e. a
`none` result, produces no successor state). -/
inductive TFStep : TextField → TextField → Prop where
  | set_text (t : TextField) (s : List Char) : TFStep t (t.set_text s)
  | set_index (t t' : TextField) (i : Nat) : t.set_index i = .ok t' → TFStep t t'
  | clear (t : TextField) : TFStep t t.clear
  | append_character (t : TextField) (c : Char) : TFStep t (t.append_character c)
  | append_string (t : TextField) (s : List Char) : TFStep t (t.append_string s)
  | insert_character (t t' : TextField) (c : Char) :
      t.insert_character c = some t' → TFStep t t'
  | insert_string (t t' : TextField) (s : List Char) :
      t.insert_string s = some t' → TFStep t t'
  | left (t : TextField) : TFStep t t.left
  | right (t : TextField) : TFStep t t.right
  | delete (t t' : TextField) : t.delete = some t' → TFStep t t'
  | backspace (t t' : TextField) : t.backspace = some t' → TFStep t t'
  | end_ (t : TextField) : TFStep t t.end_
  | home (t : TextField) : TFStep t t.home

/-- `TextField` states reachable from `TextField::new` by successful
operations. -/
inductive TFReachable : TextField → Prop where
  | new : TFReachable TextField.new
  | step {t t' : TextField} : TFReachable t → TFStep t t' → TFReachable t'

/-! ## `src/main.rs`: `StatefulList` and `StatefulTable` -/

/-- Rust `usize` subtraction: panics on underflow in debug builds
(`none`); release builds wrap, which for these call sites is equally an
out-of-range index. -/
def usizeSub (a b : Nat) : Option Nat :=
  if b ≤ a then some (a - b) else none

/-- `StatefulList<T>` from `src/main.rs`: tui's `ListState` is modelled
by its `selected` component (its `offset` component only affects
scrolling of the rendered view). -/
structure StatefulList (α : Type) where
  selected : Option Nat
  items : List α
deriving DecidableEq, Repr

/-- `StatefulList::with_items`. -/
def StatefulList.with_items (items : List α) : StatefulList α := ⟨none, items⟩

/-- `StatefulList::next`: on `Some(i)` compares `i >= items.len() - 1`
(the subtraction is evaluated even when the list is empty — underflow);
on `None` selects index 0 unconditionally. -/
def StatefulList.next (l : StatefulList α) : Option (StatefulList α) :=
  match l.selected with
  | some i =>
    (usizeSub l.items.length 1).map fun lm1 =>
      { l with selected := some (if lm1 ≤ i then 0 else i + 1) }
  | none => some { l with selected := some 0 }

/-- `StatefulList::previous`: on `Some(0)` computes `items.len() - 1`
(underflow when empty); on `Some(i+1)` decrements; on `None` selects
index 0 unconditionally. -/
def StatefulList.previous (l : StatefulList α) : Option (StatefulList α) :=
  match l.selected with
  | some i =>
    if i = 0 then
      (usizeSub l.items.length 1).map fun lm1 => { l with selected := some lm1 }
    else some { l with selected := some (i - 1) }
  | none => some { l with selected := some 0 }

/-- `StatefulList::first`: selects index 0 unconditionally. -/
def StatefulList.first (l : StatefulList α) : StatefulList α :=
  { l with selected := some 0 }

/-- `StatefulList::last`: delegates to `first` when empty (which still
selects index 0), else selects `len - 1`. -/
def StatefulList.last (l : StatefulList α) : StatefulList α :=
  if l.items.isEmpty then l.first
  else { l with selected := some (l.items.length - 1) }

/-- `StatefulTable<T>` from `src/main.rs`: tui's `TableState` is
modelled by its `selected` component. -/
structure StatefulTable (α : Type) where
  selected : Option Nat
  columns : List String
  rows : List α
deriving DecidableEq, Repr

/-- `StatefulTable::with_columns`. -/
def StatefulTable.with_columns (cols : List String) : StatefulTable α := ⟨none, cols, []⟩

/-- `StatefulTable::add_row`. -/
def StatefulTable.add_row (t : StatefulTable α) (r : α) : StatefulTable α :=
  { t with rows := t.rows ++ [r] }

/-- `StatefulTable::clear`: clears the rows only; the selection state is
left untouched. -/
def StatefulTable.clearRows (t : StatefulTable α) : StatefulTable α :=
  { t with rows := [] }

/-- `StatefulTable::next` (same arithmetic as `StatefulList::next`, over
`rows`). -/
def StatefulTable.next (t : StatefulTable α) : Option (StatefulTable α) :=
  match t.selected with
  | some i =>
    (usizeSub t.rows.length 1).map fun lm1 =>
      { t with selected := some (if lm1 ≤ i then 0 else i + 1) }
  | none => some { t with selected := some 0 }

/-- `StatefulTable::previous` (same arithmetic as
`StatefulList::previous`, over `rows`). -/
def StatefulTable.previous (t : StatefulTable α) : Option (StatefulTable α) :=
  match t.selected with
  | some i =>
    if i = 0 then
      (usizeSub t.rows.length 1).map fun lm1 => { t with selected := some lm1 }
    else some { t with selected := some (i - 1) }
  | none => some { t with selected := some 0 }

/-- Iterate an `Option`-valued operation; `none` (a panic) aborts. -/
def iterOpt (f : α → Option α) : Nat → α → Option α
  | 0, a => some a
  | n + 1, a => (f a).bind (iterOpt f n)

/-! ## `src/main.rs`: modes, events, external collaborators -/

/-- `InputMode` from `src/main.rs`. -/
inductive InputMode where
  | Normal | Search | Folder | Model | Match | Help | Tenant
deriving DecidableEq, Repr

/-- `HelpType` from `src/main.rs`. -/
inductive HelpType where
  | General | Search | Folder | Model | Match | Tenant
deriving DecidableEq, Repr

/-- The `Display` implementation of `InputMode` (note the trailing
padding spaces in the source). -/
def modeName : InputMode → String
  | .Normal => "Normal"
  | .Search => "Search"
  | .Folder => "Folder"
  | .Model => "Model "
  | .Match => "Match "
  | .Help => "Help  "
  | .Tenant => "Tenant"

/-- Crossterm key modifiers, as far as the dispatch inspects them. -/
structure KeyMods where
  ctrl : Bool
  alt : Bool
  shift : Bool
deriving DecidableEq, Repr

/-- `KeyModifiers::CONTROL` (an exact-equality pattern in the source). -/
def KeyMods.control : KeyMods := ⟨true, false, false⟩

/-- No modifiers. -/
def KeyMods.noMods : KeyMods := ⟨false, false, false⟩

/-- The crossterm key codes the dispatch distinguishes; every other code
only ever reaches wildcard arms and is collapsed into `Other`. -/
inductive KeyCode where
  | Char (c : Char)
  | Tab | Esc | Enter | Up | Down | Home | End
  | Backspace | Left | Right | Delete | PageUp | PageDown
  | F (n : Nat)
  | Other
deriving DecidableEq, Repr

/-- A crossterm `KeyEvent`. -/
structure KeyEvent where
  code : KeyCode
  modifiers : KeyMods
deriving DecidableEq, Repr

/-- A crossterm `Event`: key events are dispatched; mouse/resize events
hit the `_ => {}` arm of every mode. -/
inductive Event where
  | key (k : KeyEvent)
  | other
deriving DecidableEq, Repr

/-- `tui_textarea::Key`, the target of the key translation in the
Search-mode wildcard arm. -/
inductive TKey where
  | Char (c : Char)
  | Backspace | Enter | Left | Right | Up | Down | Tab
  | Delete | Home | End | PageUp | PageDown | Esc
  | F (n : Nat)
  | Null
deriving DecidableEq, Repr

/-- `tui_textarea::Input`. -/
structure TAInput where
  ctrl : Bool
  alt : Bool
  key : TKey
deriving DecidableEq, Repr

/-- The `KeyCode → tui_textarea::Key` translation of the Search-mode
wildcard arm. -/
def toTKey : KeyCode → TKey
  | .Char c => .Char c
  | .Backspace => .Backspace
  | .Enter => .Enter
  | .Left => .Left
  | .Right => .Right
  | .Up => .Up
  | .Down => .Down
  | .Tab => .Tab
  | .Delete => .Delete
  | .Home => .Home
  | .End => .End
  | .PageUp => .PageUp
  | .PageDown => .PageDown
  | .Esc => .Esc
  | .F x => .F x
  | .Other => .Null

/-- `pcli::model::Folder`, as far as the core reads it. -/
structure Folder where
  id : Nat
  name : String
deriving DecidableEq, Repr

/-- `pcli::model::Model`, as far as the core reads it. -/
structure PModel where
  uuid : String
  name : String
  state : String
deriving DecidableEq, Repr

/-- `pcli::service::Api`, as far as the core stores it. -/
structure Api where
  baseUrl : String
  tenant : String
  accessToken : String
deriving DecidableEq, Repr

/-- The part of an `ApiConfiguration` the core reads after
`from_client_configuration` succeeds. -/
structure ApiConfig where
  baseUrl : String
  accessToken : String
deriving DecidableEq, Repr

/-- `PtuiError` from `src/main.rs`. -/
inductive PtuiError where
  | failedToInitializeService
  | tenantNotSelected
  | configurationError (cause : Option String)
  | inputError
  | displayError
deriving DecidableEq, Repr

/-- The `Display` implementation of `PtuiError`. -/
def PtuiError.msg : PtuiError → String
  | .failedToInitializeService => "Failed to initialize the API service module"
  | .tenantNotSelected => "Tenant not selected"
  | .configurationError (some c) => "Configuration error occurred: " ++ c
  | .configurationError none => "Configuration error occurred"
  | .inputError => "Error occurred while receiving user input"
  | .displayError => "Error occurred while displaying output"

/-- The external collaborators of one dispatch step, supplied as
oracles: the pcli backend API, the token store, the configuration
loader and the `tui_textarea` editing widget. -/
structure Externals where
  listAllModels : Api → List Nat → Except String (List PModel)
  getListOfFolders : Api → Except String (List Folder)
  invalidateToken : String → Except String Unit
  clientConfig : String → Except (Option String) ApiConfig
  textInput : List String → TAInput → List String

/-! ## `src/main.rs`: the controller state -/

/-- `State` from `src/main.rs`.  `search_field` holds the lines of the
`tui_textarea::TextArea`; the `configuration` field is represented by
the data the controller actually reads from it (the tenant keys, fed to
`State::initialize`, and the per-tenant API configuration, supplied via
`Externals.clientConfig`).  The extra `log` field models the
`tui_logger` sink that the `debug!`/`info!`/`warn!`/`error!` macros
write to, in chronological order. -/
structure State where
  mode : InputMode
  previous_mode : InputMode
  search_field : List String
  folder_list : StatefulList Folder
  models_table : StatefulTable PModel
  status_line : String
  help_text : String
  display_help : Bool
  display_tenants : Bool
  tenants : StatefulList String
  active_tenant : Option String
  active_folder : Option String
  api : Option Api
  log : List String
deriving DecidableEq, Repr

/-- Append one formatted message to the log sink (a `debug!`, `info!`,
`warn!` or `error!` call). -/
def State.tell (s : State) (m : String) : State := { s with log := s.log ++ [m] }

/-- The fixed status hint `change_mode` installs for each mode. -/
def modeHint : InputMode → String
  | .Normal => "Press <h> for help or <q> to exit"
  | .Search => "Press <Esc> to return to Normal mode or <Ctrl-h> for help"
  | .Folder => "Press <Esc> to return to Normal mode, <h> for help, or <Tab> for Model mode"
  | .Model => "Press <Esc> to return to Normal mode, <h> for help, or <Tab> for Folder mode"
  | .Match => "Press <Esc> to return to Normal mode, <h> for help"
  | .Help => "Press any key to exit the help"
  | .Tenant => "Select and press <Enter> to specify a tenant, or press <Esc> to cancel"

/-- `State::change_mode`: saves the old mode into `previous_mode`,
clears then re-fills the status line with the new mode's hint, logs the
transition, and additionally logs an `info!` when entering `Tenant`. -/
def State.change_mode (s : State) (m : InputMode) : State :=
  let s1 : State :=
    { s with previous_mode := s.mode, status_line := "", mode := m,
             log := s.log ++ ["Changed mode from " ++ modeName s.mode ++ " to " ++ modeName m] }
  match m with
  | .Tenant =>
    { s1 with log := s1.log ++ ["Please select your tenant from the list"],
              status_line := modeHint .Tenant }
  | m' => { s1 with status_line := modeHint m' }

/-- The help body installed by `State::set_help` for each `HelpType`
(the `*_MODE_HELP` constants). -/
def helpBody : HelpType → String
  | .General => "\nNormal Mode:\n\n<q>    Exit the program\n<t>    Select Physna tenant\n<f>    Switch to Folder mode\n<m>    Switch to Model mode\n\nPress any key to exit this help\n"
  | .Search => "\nSearch Mode:\n\n<Esc>          Exit to Normal mode\n<Backspace>    Delete the character left of the cursor\n<Left Arrow>   Move cursor left\n<Right Arrow>  Move cursor right\n<Home>         Go to beginning of line\n<End>          Go to end of line\n<Delete>       Delete character under cursor\n<Enter>        Execute search\n"
  | .Folder => "\nFolder Mode:\n\n<Esc>    Exit to Normal mode\n<r>      Reload the list of folders\n"
  | .Model => "\nModel Mode:\n\n<Esc>    Exit to Normal mode\n<r>      Reload the list of models\n"
  | .Match => "\nMatch Mode:\n\n<Esc>    Exit to Normal mode\n<r>      Regenerate matches\n"
  | .Tenant => "\nTenant Mode:\n\n<Esc>    Exit to Normal mode\n<r>      Regenerate matches\n"

/-- `State::set_help`: every arm sets the matching help body and raises
`display_help`. -/
def State.set_help (s : State) (h : HelpType) : State :=
  { s with help_text := helpBody h, display_help := true }

/-- `State::hide_help`. -/
def State.hide_help (s : State) : State := { s with display_help := false }

/-- `State::clear_folders`: clears the folder items only; the list's
selection state is left untouched. -/
def State.clear_folders (s : State) : State :=
  { s with folder_list := { s.folder_list with items := [] } }

/-- `State::add_folder`. -/
def State.add_folder (s : State) (f : Folder) : State :=
  { s with folder_list := { s.folder_list with items := s.folder_list.items ++ [f] } }

/-- Insertion into a `≤`-sorted list (used to model the two `sort`
calls; pcli's derived `Ord` instances are external, and no claim depends
on the resulting order). -/
def insertLE (le : α → α → Bool) (a : α) : List α → List α
  | [] => [a]
  | b :: bs => if le a b then a :: b :: bs else b :: insertLE le a bs

/-- Insertion sort. -/
def sortLE (le : α → α → Bool) : List α → List α
  | [] => []
  | a :: as => insertLE le a (sortLE le as)

/-- Ordering used for `folders.folders.sort()` (by id, then name). -/
def folderLE (a b : Folder) : Bool :=
  if a.id = b.id then decide (a.name ≤ b.name) else decide (a.id < b.id)

/-- `State::new(configuration)`: starts in `Tenant` mode with the tenant
picker shown. -/
def State.new : State :=
  { mode := .Tenant
    previous_mode := .Tenant
    search_field := [""]
    folder_list := ⟨none, []⟩
    models_table := StatefulTable.with_columns ["Name", "Status", "UUID"]
    status_line := ""
    help_text := ""
    display_help := false
    display_tenants := true
    tenants := ⟨none, []⟩
    active_tenant := none
    active_folder := none
    api := none
    log := [] }

/-- `State::initialize`: pushes every configured tenant key, sorts the
tenant list, and clears the models table (the cursor-line style call is
a rendering detail with no state in this model). -/
def State.initialize (s : State) (tenantKeys : List String) : State :=
  { s with
      tenants := { s.tenants with
                     items := sortLE (fun a b => decide (a ≤ b)) (s.tenants.items ++ tenantKeys) }
      models_table := s.models_table.clearRows }

/-- `State::initialize_service`: outer `none` models the
`invalidate_token(..).unwrap()` panic; otherwise returns the updated
state paired with the `Result` the caller matches on.  On any `Err` the
state (in particular `api`) is unchanged. -/
def State.initialize_service (ext : Externals) (s : State) :
    Option (State × Except PtuiError Unit) :=
  match s.active_tenant with
  | none => some (s, .error .tenantNotSelected)
  | some t =>
    match ext.invalidateToken t with
    | .error _ => none
    | .ok _ =>
      match ext.clientConfig t with
      | .ok cfg =>
        some ({ s.tell ("Started a new session with Physna for tenant " ++ t) with
                  api := some ⟨cfg.baseUrl, t, cfg.accessToken⟩ }, .ok ())
      | .error cause => some (s, .error (.configurationError cause))

/-! ## `src/main.rs`: the event loop body (`run_app`) -/

/-- Outcome of handling one event in the `run_app` loop: continue with
the mutated state, or leave the loop successfully (the `q` key in
`Normal` mode). -/
inductive StepResult where
  | cont (s : State)
  | quit (s : State)
deriving DecidableEq, Repr

/-- The `InputMode::Normal` arm of the dispatch (the source's ordered
match arms, written as an if-chain over the key code). -/
def stepNormal (s : State) (k : KeyEvent) : StepResult :=
  if k.code = .Char 'q' then .quit s
  else if k.code = .Char 'f' ∨ k.code = .Tab then .cont (s.change_mode .Folder)
  else if k.code = .Char 's' then .cont (s.change_mode .Search)
  else if k.code = .Char 'm' then .cont (s.change_mode .Model)
  else if k.code = .Char 'c' then .cont (s.change_mode .Match)
  else if k.code = .Char 'h' then .cont ((s.set_help .General).change_mode .Help)
  else if k.code = .Char 't' then
    .cont ({ s with display_tenants := true }.change_mode .Tenant)
  else .cont { s.tell "Unsupported key binding. Press <h> for help" with
                 status_line := "Press <h> for help or <q> to exit" }

/-- The `InputMode::Search` arm of the dispatch.  `none` models the
panic of `lines()[0]` on an empty line vector (a `tui_textarea`
invariant keeps it non-empty, but the widget is external). -/
def stepSearch (ext : Externals) (s : State) (k : KeyEvent) : Option StepResult :=
  if k.code = .Esc then some (.cont (s.change_mode .Normal))
  else if k.code = .Enter then
    match s.search_field with
    | [] => none
    | t :: _ => some (.cont (s.tell ("Search for \"" ++ t ++ "\"")))
  else if k.code = .Char 'h' ∧ k.modifiers = KeyMods.control then
    some (.cont ((s.set_help .Search).change_mode .Help))
  else
    some (.cont { s with
                    search_field :=
                      ext.textInput s.search_field
                        ⟨k.modifiers.ctrl, k.modifiers.alt, toTKey k.code⟩ })

/-- The `Enter` handler of the `InputMode::Folder` arm. -/
def folderEnter (ext : Externals) (s : State) : StepResult :=
  match s.folder_list.selected with
  | some index =>
    match s.folder_list.items.get? index with
    | some folder =>
      let s := { s with active_folder := some folder.name }
      let s := s.tell ("Selected folder [" ++ toString folder.id ++ "] \"" ++ folder.name ++ "\"")
      match s.api with
      | some api =>
        let s := s.tell ("Reading the list of models for folder " ++ toString folder.id ++ "...")
        match ext.listAllModels api [folder.id] with
        | .ok models =>
          let s := s.tell ("Found " ++ toString models.length ++ " model(s)")
          .cont { s with models_table := { s.models_table.clearRows with rows := models } }
        | .error e => .cont (s.tell ("Error reading models: " ++ e))
      | none => .cont { s with active_folder := none, models_table := s.models_table.clearRows }
    | none => .cont { s with active_folder := none, models_table := s.models_table.clearRows }
  | none =>
    .cont ({ s with active_folder := none,
                    models_table := s.models_table.clearRows }.tell "No folder selected")

/-- The `InputMode::Folder` arm of the dispatch; `none` models the
`usize` underflow panics of the list navigation. -/
def stepFolder (ext : Externals) (s : State) (k : KeyEvent) : Option StepResult :=
  if k.code = .Esc then some (.cont (s.change_mode .Normal))
  else if k.code = .Tab then some (.cont (s.change_mode .Model))
  else if k.code = .Char 'h' then some (.cont ((s.set_help .Folder).change_mode .Help))
  else if k.code = .Up then
    (s.folder_list.previous).map fun l => .cont { s with folder_list := l }
  else if k.code = .Down then
    (s.folder_list.next).map fun l => .cont { s with folder_list := l }
  else if k.code = .Home then some (.cont { s with folder_list := s.folder_list.first })
  else if k.code = .End then some (.cont { s with folder_list := s.folder_list.last })
  else if k.code = .Enter then some (folderEnter ext s)
  else some (.cont s)

/-- The `Enter` handler of the `InputMode::Model` arm: an out-of-range
selected row makes `rows.get(index).ok_or(..)` an `Err` that is
immediately `unwrap`ped — a panic (`none`). -/
def modelEnter (s : State) : Option StepResult :=
  match s.models_table.selected with
  | some index =>
    match s.models_table.rows.get? index with
    | some row => some (.cont (s.tell ("Selected model \"" ++ row.uuid ++ "\"")))
    | none => none
  | none => some (.cont (s.tell "No model selected"))

/-- The `InputMode::Model` arm of the dispatch. -/
def stepModel (s : State) (k : KeyEvent) : Option StepResult :=
  if k.code = .Esc then some (.cont (s.change_mode .Normal))
  else if k.code = .Tab then some (.cont (s.change_mode .Folder))
  else if k.code = .Up then
    (s.models_table.previous).map fun t => .cont { s with models_table := t }
  else if k.code = .Down then
    (s.models_table.next).map fun t => .cont { s with models_table := t }
  else if k.code = .Enter then modelEnter s
  else if k.code = .Char 'h' then some (.cont ((s.set_help .Model).change_mode .Help))
  else some (.cont s)

/-- The `InputMode::Match` arm of the dispatch. -/
def stepMatch (s : State) (k : KeyEvent) : StepResult :=
  if k.code = .Esc then .cont (s.change_mode .Normal)
  else if k.code = .Char 'h' then .cont ((s.set_help .Match).change_mode .Help)
  else .cont s

/-- The `Enter` handler of the `InputMode::Tenant` arm.  An out-of-range
selected tenant index panics (`unwrap` of an `Err`), as does a failing
`invalidate_token` inside `initialize_service`. -/
def tenantEnter (ext : Externals) (s : State) : Option StepResult :=
  match s.tenants.selected with
  | some index =>
    match s.tenants.items.get? index with
    | none => none
    | some item =>
      let s := { s with active_tenant := some item }
      let s := s.tell ("Selected tenant \"" ++ item ++ "\"")
      match s.initialize_service ext with
      | none => none
      | some (s, res) =>
        let s :=
          match res with
          | .ok _ => s.tell "Connected to the Physna service"
          | .error e => s.tell ("Unable to connect to Physna, because of: " ++ e.msg)
        let s :=
          match s.api with
          | some api =>
            match ext.getListOfFolders api with
            | .ok folders =>
              let s := s.clear_folders
              let s := { s with folder_list := { s.folder_list with
                                                  items := sortLE folderLE folders } }
              s.tell "List of folders ready"
            | .error e => s.tell ("Failed to read the list of fodlers: " ++ e)
          | none => s.tell "No connection with Physna"
        some (.cont ({ s with display_tenants := false }.change_mode .Normal))
  | none => some (.cont ({ s with active_tenant := none }.tell "No tenant selected"))

/-- The `InputMode::Tenant` arm of the dispatch. -/
def stepTenant (ext : Externals) (s : State) (k : KeyEvent) : Option StepResult :=
  if k.code = .Esc then some (.cont ({ s with display_tenants := false }.change_mode .Normal))
  else if k.code = .Char 'h' then some (.cont ((s.set_help .Tenant).change_mode .Help))
  else if k.code = .Up then (s.tenants.previous).map fun l => .cont { s with tenants := l }
  else if k.code = .Down then (s.tenants.next).map fun l => .cont { s with tenants := l }
  else if k.code = .Home then some (.cont { s with tenants := s.tenants.first })
  else if k.code = .End then some (.cont { s with tenants := s.tenants.last })
  else if k.code = .Enter then tenantEnter ext s
  else some (.cont s)

/-- One iteration of the `run_app` loop body after the draw and the
event read: dispatch the event on the current mode.  `none` models a
panic inside the handler; non-key events hit the `_ => {}` arm of every
mode. -/
def step (ext : Externals) (s : State) (ev : Event) : Option StepResult :=
  match ev with
  | .other => some (.cont s)
  | .key k =>
    match s.mode with
    | .Normal => some (stepNormal s k)
    | .Search => stepSearch ext s k
    | .Folder => stepFolder ext s k
    | .Model => stepModel s k
    | .Match => some (stepMatch s k)
    | .Help => some (.cont ((s.hide_help).change_mode s.previous_mode))
    | .Tenant => stepTenant ext s k

/-- The state `run_app` enters its loop with: `State::new` followed by
`State::initialize` on the configured tenant keys. -/
def initState (tenantKeys : List String) : State := State.new.initialize tenantKeys

/-- Controller states reachable from the initial state by handling
events (with arbitrary, possibly differing, external behaviour at each
step). -/
inductive Reachable : State → Prop where
  | init (tenantKeys : List String) : Reachable (initState tenantKeys)
  | step {s s' : State} (ext : Externals) (e : Event) :
      Reachable s → step ext s e = some (.cont s') → Reachable s'

/-! ## Concrete data for witnesses and counterexamples -/

/-- A trivial external world: every backend call fails with a fixed
error, token invalidation succeeds, configuration loading fails, and
the text area ignores input. -/
def ext0 : Externals :=
  { listAllModels := fun _ _ => .error "offline"
    getListOfFolders := fun _ => .error "offline"
    invalidateToken := fun _ => .ok ()
    clientConfig := fun _ => .error none
    textInput := fun lines _ => lines }

/-- Extract the continuation state of a step result (with a default for
the impossible cases at the concrete inputs where it is used). -/
def contState (r : Option StepResult) (d : State) : State :=
  match r with
  | some (.cont s) => s
  | some (.quit s) => s
  | none => d

/-- The state after one handled event (used to name intermediate states
of concrete runs). -/
def afterCont (ext : Externals) (s : State) (e : Event) : State :=
  contState (step ext s e) s

/-- The selection invariant of the spec: a `Some` selection indexes an
existing position. -/
def SelValid (sel : Option Nat) (len : Nat) : Prop :=
  ∀ i, sel = some i → i < len

/-- The spec's `SelectableCollection` invariant for a `StatefulList`. -/
def StatefulList.InvS (l : StatefulList α) : Prop :=
  SelValid l.selected l.items.length

/-- The spec's `SelectableCollection` invariant for a `StatefulTable`. -/
def StatefulTable.InvS (t : StatefulTable α) : Prop :=
  SelValid t.selected t.rows.length

/-- The help key event used in concrete runs. -/
def keyH : Event := .key ⟨.Char 'h', KeyMods.noMods⟩

/-- An arbitrary key event used to leave the help screen in concrete
runs. -/
def keyX : Event := .key ⟨.Char 'x', KeyMods.noMods⟩

/-- The enter key event used in concrete runs. -/
def keyEnter : Event := .key ⟨.Enter, KeyMods.noMods⟩

/-- An external world whose session setup succeeds but whose listing
calls fail. -/
def extB : Externals :=
  { listAllModels := fun _ _ => .error "offline"
    getListOfFolders := fun _ => .error "offline"
    invalidateToken := fun _ => .ok ()
    clientConfig := fun _ => .ok ⟨"https://api.example", "token"⟩
    textInput := fun lines _ => lines }

/-- A concrete state in `Folder` mode with a selected folder, a live
API session and one row in the models table. -/
def stC5 : State :=
  { State.new with
      mode := .Folder
      folder_list := ⟨some 0, [⟨7, "fold"⟩]⟩
      api := some ⟨"https://api.example", "acme", "token"⟩
      models_table := ⟨none, ["Name", "Status", "UUID"], [⟨"u1", "m1", "Ready"⟩]⟩ }

/-- A concrete state in `Tenant` mode with a selected tenant and a
non-empty folder list. -/
def stC5T : State :=
  { State.new with
      mode := .Tenant
      tenants := ⟨some 0, ["acme"]⟩
      folder_list := ⟨none, [⟨3, "old"⟩]⟩ }

/-- A concrete state in `Folder` mode with no folder selected and the
Folder-mode hint in the status line. -/
def stC9 : State :=
  { State.new with mode := .Folder, status_line := modeHint .Folder }

/-! # Theorems -/

/-! ## Basic facts about the UTF-8 model -/

theorem utf8Len_pos (c : Char) : 1 ≤ utf8Len c := by
  simp only [utf8Len]; split_ifs <;> omega

theorem byteLen_nil : byteLen [] = 0 := rfl

theorem byteLen_cons (c : Char) (s : List Char) :
    byteLen (c :: s) = utf8Len c + byteLen s := rfl

theorem byteLen_append (a b : List Char) :
    byteLen (a ++ b) = byteLen a + byteLen b := by
  induction a with
  | nil => simp [byteLen_nil]
  | cons c cs ih => simp only [List.cons_append, byteLen_cons, ih]; omega

/-- A successful byte-offset split decomposes the string, and the prefix
occupies exactly the requested number of bytes. -/
theorem splitAtByte_spec : ∀ (s : List Char) (i : Nat) (p q : List Char),
    splitAtByte s i = some (p, q) → s = p ++ q ∧ byteLen p = i := by
  intro s
  induction s with
  | nil =>
    intro i p q h
    match i with
    | 0 =>
      simp only [splitAtByte, Option.some.injEq, Prod.mk.injEq] at h
      obtain ⟨hp, hq⟩ := h
      subst hp; subst hq
      simp [byteLen_nil]
    | n + 1 => simp [splitAtByte] at h
  | cons c cs ih =>
    intro i p q h
    match i with
    | 0 =>
      simp only [splitAtByte, Option.some.injEq, Prod.mk.injEq] at h
      obtain ⟨hp, hq⟩ := h
      subst hp; subst hq
      simp [byteLen_nil]
    | n + 1 =>
      simp only [splitAtByte] at h
      split at h
      · rename_i hle
        cases hsp : splitAtByte cs (n + 1 - utf8Len c) with
        | none => rw [hsp] at h; simp at h
        | some pq =>
          rw [hsp] at h
          simp only [Option.map_some', Option.some.injEq, Prod.mk.injEq] at h
          obtain ⟨hp, hq⟩ := h
          obtain ⟨h1, h2⟩ := ih (n + 1 - utf8Len c) pq.1 pq.2 (by rw [hsp])
          subst hp; subst hq
          refine ⟨by simp [h1], ?_⟩
          simp only [byteLen_cons]
          omega
      · simp at h
/-! ## `TextField` cursor-bound lemmas -/

theorem TextField.left_inv {t : TextField} (hi : t.index ≤ byteLen t.text) :
    t.left.index ≤ byteLen t.left.text := by
  unfold TextField.left
  split
  · exact Nat.le_trans (Nat.sub_le _ _) hi
  · exact hi

theorem TextField.delete_inv {t t' : TextField} (hi : t.index ≤ byteLen t.text)
    (h : t.delete = some t') : t'.index ≤ byteLen t'.text := by
  unfold TextField.delete at h
  split at h
  · cases hr : removeAt t.text t.index with
    | none => rw [hr] at h; simp at h
    | some s' =>
      rw [hr] at h
      simp only [Option.map_some', Option.some.injEq] at h
      subst h
      unfold removeAt at hr
      split at hr
      · rename_i p c q hsp
        obtain ⟨h1, h2⟩ := splitAtByte_spec _ _ _ _ hsp
        simp only [Option.some.injEq] at hr
        subst hr
        show t.index ≤ byteLen (p ++ q)
        simp only [byteLen_append]
        omega
      · simp at hr
  · simp only [Option.some.injEq] at h
    subst h
    exact hi

theorem TextField.insert_character_inv {t t' : TextField} (c : Char)
    (h : t.insert_character c = some t') : t'.index ≤ byteLen t'.text := by
  unfold TextField.insert_character insertCharAt insertStrAt at h
  cases hsp : splitAtByte t.text t.index with
  | none => rw [hsp] at h; simp at h
  | some pq =>
    rw [hsp] at h
    simp only [Option.map_some', Option.some.injEq] at h
    subst h
    obtain ⟨h1, h2⟩ := splitAtByte_spec _ _ _ _ hsp
    have := utf8Len_pos c
    show t.index + 1 ≤ byteLen (pq.1 ++ [c] ++ pq.2)
    simp only [byteLen_append, byteLen_cons, byteLen_nil]
    omega

theorem TextField.insert_string_inv {t t' : TextField} (s2 : List Char)
    (h : t.insert_string s2 = some t') : t'.index ≤ byteLen t'.text := by
  unfold TextField.insert_string insertStrAt at h
  cases hsp : splitAtByte t.text t.index with
  | none => rw [hsp] at h; simp at h
  | some pq =>
    rw [hsp] at h
    simp only [Option.map_some', Option.some.injEq] at h
    subst h
    obtain ⟨h1, h2⟩ := splitAtByte_spec _ _ _ _ hsp
    show t.index ≤ byteLen (pq.1 ++ s2 ++ pq.2)
    simp only [byteLen_append]
    omega

/-- Every successful `TextField` operation preserves the byte-level
cursor bound `index ≤ byteLen text`. -/
theorem TFStep.preserves_inv {t t' : TextField} (h : TFStep t t')
    (hi : t.index ≤ byteLen t.text) : t'.index ≤ byteLen t'.text := by
  cases h with
  | set_text s => simp [TextField.set_text]
  | set_index t' i h =>
    unfold TextField.set_index at h
    split at h
    · rename_i hle
      simp only [Except.ok.injEq] at h
      subst h
      exact hle
    · simp at h
  | clear => simp [TextField.clear, byteLen_nil]
  | append_character c => simp [TextField.append_character, TextField.set_text]
  | append_string s => simp [TextField.append_string, TextField.set_text]
  | insert_character t' c h => exact TextField.insert_character_inv c h
  | insert_string t' s h => exact TextField.insert_string_inv s h
  | left => exact TextField.left_inv hi
  | right =>
    unfold TextField.right
    split
    · rename_i hlt
      exact hlt
    · exact hi
  | delete t' h => exact TextField.delete_inv hi h
  | backspace t' h =>
    unfold TextField.backspace at h
    split at h
    · exact TextField.delete_inv (TextField.left_inv hi) h
    · simp only [Option.some.injEq] at h
      subst h
      exact hi
  | end_ => simp [TextField.end_]
  | home => simp [TextField.home]

/-! ## Claim C6 -/

/-- C6 (amended): for every reachable `TextField` state, the cursor is
bounded by the BYTE length of the text, `0 ≤ index ≤ byteLen text`.
(The claim's bound by the character count fails, see the
counterexample: the source stores a byte offset.) -/
theorem C6_cursor_bounded_by_byte_length {t : TextField} (h : TFReachable t) :
    t.index ≤ byteLen t.text := by
  induction h with
  | new => exact Nat.le_refl 0
  | step hr hs ih => exact hs.preserves_inv ih

theorem C6_witness :
    ((TextField.new.set_text ['a', 'b']).index ≤
        byteLen (TextField.new.set_text ['a', 'b']).text) ∧
    TextField.new.set_text ['a', 'b'] = TextField.mk ['a', 'b'] 2 :=
  ⟨C6_cursor_bounded_by_byte_length
      (TFReachable.step TFReachable.new (TFStep.set_text TextField.new ['a', 'b'])),
   by decide⟩

/-- C6 (counterexample): after `set_text` of the one-character string
"é" (a two-byte character), the state is reachable and the cursor (byte
offset 2) strictly exceeds the character count (1) — so the claimed
invariant `cursor ≤ text.length` over characters is false on the
code. -/
theorem C6_counterexample :
    TFReachable (TextField.mk ['é'] 2) ∧
    (TextField.mk ['é'] 2).text.length < (TextField.mk ['é'] 2).index := by
  constructor
  · have h : TFStep TextField.new (TextField.new.set_text ['é']) :=
      TFStep.set_text _ _
    have he : TextField.new.set_text ['é'] = TextField.mk ['é'] 2 := by decide
    rw [he] at h
    exact TFReachable.step TFReachable.new h
  · decide

/-! ## Claim C7 -/

/-- C7 (code bug): with the reachable state `text = "ab"`, `cursor = 2`
(no character at the cursor), `delete()` panics — `String::remove(2)` on
a two-byte string — instead of leaving the buffer unchanged: the guard
tests `text.len() > 0` where the claimed (and clearly intended)
behaviour needs `index < text.len()`. -/
theorem C7_delete_at_end_panics :
    TFReachable (TextField.mk ['a', 'b'] 2) ∧
    (TextField.mk ['a', 'b'] 2).delete = none := by
  constructor
  · have h : TFStep TextField.new (TextField.new.set_text ['a', 'b']) :=
      TFStep.set_text _ _
    have he : TextField.new.set_text ['a', 'b'] = TextField.mk ['a', 'b'] 2 := by decide
    rw [he] at h
    exact TFReachable.step TFReachable.new h
  · decide

/-! ## Claim C10 -/

/-- C10 (amended): when the cursor lies on a character boundary of the
text (`splitAtByte` succeeds — in particular always when the text is
pure ASCII), `insert_string(s)` inserts `s` at the cursor byte position
and changes no other field: the cursor is unchanged, equals the byte
length of the prefix (i.e. points at the start of the inserted text),
and is bounded by the new byte length.  (On a non-boundary cursor the
call panics instead of inserting, see the counterexample.) -/
theorem C10_insert_string_at_boundary (t : TextField) (s2 p q : List Char)
    (h : splitAtByte t.text t.index = some (p, q)) :
    t.insert_string s2 = some { t with text := p ++ s2 ++ q } ∧
    t.index = byteLen p ∧
    t.index ≤ byteLen (p ++ s2 ++ q) := by
  obtain ⟨h1, h2⟩ := splitAtByte_spec _ _ _ _ h
  refine ⟨?_, h2.symm, ?_⟩
  · unfold TextField.insert_string insertStrAt
    rw [h]
    rfl
  · simp only [byteLen_append]
    omega

theorem C10_witness :
    (TextField.mk ['a', 'b'] 1).insert_string ['x'] =
      some { TextField.mk ['a', 'b'] 1 with text := ['a'] ++ ['x'] ++ ['b'] } ∧
    (TextField.mk ['a', 'b'] 1).index = byteLen ['a'] ∧
    (TextField.mk ['a', 'b'] 1).index ≤ byteLen (['a'] ++ ['x'] ++ ['b']) :=
  C10_insert_string_at_boundary (TextField.mk ['a', 'b'] 1) ['x'] ['a'] ['b'] (by decide)

/-- C10 (counterexample): the reachable state with text "é" and cursor 1
(produced by `insert_character('é')`, which advances the byte cursor by
only 1) makes `insert_string` panic (`String::insert_str` on a
non-boundary offset) instead of inserting — so the claim does not hold
for every `TextField` state. -/
theorem C10_counterexample :
    TFReachable (TextField.mk ['é'] 1) ∧
    (TextField.mk ['é'] 1).insert_string ['x'] = none := by
  constructor
  · have h : TextField.new.insert_character 'é' = some (TextField.mk ['é'] 1) := by decide
    exact TFReachable.step TFReachable.new
      (TFStep.insert_character TextField.new (TextField.mk ['é'] 1) 'é' h)
  · decide

/-! ## `StatefulList` / `StatefulTable` navigation lemmas -/

theorem usizeSub_one {n : Nat} (h : 0 < n) : usizeSub n 1 = some (n - 1) := by
  unfold usizeSub
  rw [if_pos (show 1 ≤ n by omega)]

theorem StatefulList.next_mod {α : Type} (items : List α) (i : Nat)
    (hi : i < items.length) :
    StatefulList.next ⟨some i, items⟩ = some ⟨some ((i + 1) % items.length), items⟩ := by
  have hpos : 0 < items.length := Nat.lt_of_le_of_lt (Nat.zero_le i) hi
  simp only [StatefulList.next, usizeSub_one hpos, Option.map_some', Option.some.injEq]
  have : (if items.length - 1 ≤ i then 0 else i + 1) = (i + 1) % items.length := by
    split
    · have h1 : i + 1 = items.length := by omega
      rw [h1, Nat.mod_self]
    · rw [Nat.mod_eq_of_lt (by omega)]
  rw [this]

theorem StatefulList.previous_mod {α : Type} (items : List α) (i : Nat)
    (hi : i < items.length) :
    StatefulList.previous ⟨some i, items⟩ =
      some ⟨some ((i + (items.length - 1)) % items.length), items⟩ := by
  have hpos : 0 < items.length := Nat.lt_of_le_of_lt (Nat.zero_le i) hi
  by_cases h0 : i = 0
  · subst h0
    simp only [StatefulList.previous, eq_self_iff_true, if_true, usizeSub_one hpos,
      Option.map_some', Option.some.injEq, Nat.zero_add]
    rw [Nat.mod_eq_of_lt (by omega)]
  · simp only [StatefulList.previous, if_neg h0, Option.some.injEq]
    have : (i + (items.length - 1)) % items.length = i - 1 := by
      have h1 : i + (items.length - 1) = (i - 1) + items.length := by omega
      rw [h1, Nat.add_mod_right, Nat.mod_eq_of_lt (by omega)]
    rw [this]

theorem StatefulList.next_iter_mod {α : Type} :
    ∀ (k : Nat) (items : List α) (i : Nat), i < items.length →
      iterOpt StatefulList.next k ⟨some i, items⟩ =
        some ⟨some ((i + k) % items.length), items⟩ := by
  intro k
  induction k with
  | zero =>
    intro items i hi
    simp [iterOpt, Nat.mod_eq_of_lt hi]
  | succ k ih =>
    intro items i hi
    have hpos : 0 < items.length := Nat.lt_of_le_of_lt (Nat.zero_le i) hi
    simp only [iterOpt]
    rw [StatefulList.next_mod items i hi]
    show iterOpt StatefulList.next k ⟨some ((i + 1) % items.length), items⟩ = _
    rw [ih items ((i + 1) % items.length) (Nat.mod_lt _ hpos)]
    have : ((i + 1) % items.length + k) % items.length =
        (i + (k + 1)) % items.length := by
      rw [Nat.mod_add_mod]
      congr 1
      omega
    rw [this]

theorem StatefulList.previous_iter_mod {α : Type} :
    ∀ (k : Nat) (items : List α) (i : Nat), i < items.length →
      iterOpt StatefulList.previous k ⟨some i, items⟩ =
        some ⟨some ((i + k * (items.length - 1)) % items.length), items⟩ := by
  intro k
  induction k with
  | zero =>
    intro items i hi
    simp [iterOpt, Nat.mod_eq_of_lt hi]
  | succ k ih =>
    intro items i hi
    have hpos : 0 < items.length := Nat.lt_of_le_of_lt (Nat.zero_le i) hi
    simp only [iterOpt]
    rw [StatefulList.previous_mod items i hi]
    show iterOpt StatefulList.previous k
        ⟨some ((i + (items.length - 1)) % items.length), items⟩ = _
    rw [ih items ((i + (items.length - 1)) % items.length) (Nat.mod_lt _ hpos)]
    have : ((i + (items.length - 1)) % items.length + k * (items.length - 1)) %
          items.length =
        (i + (k + 1) * (items.length - 1)) % items.length := by
      rw [Nat.mod_add_mod]
      congr 1
      ring
    rw [this]

theorem tableNext_mod {α : Type} (cols : List String) (rows : List α) (i : Nat)
    (hi : i < rows.length) :
    StatefulTable.next ⟨some i, cols, rows⟩ =
      some ⟨some ((i + 1) % rows.length), cols, rows⟩ := by
  have hpos : 0 < rows.length := Nat.lt_of_le_of_lt (Nat.zero_le i) hi
  simp only [StatefulTable.next, usizeSub_one hpos, Option.map_some', Option.some.injEq]
  have : (if rows.length - 1 ≤ i then 0 else i + 1) = (i + 1) % rows.length := by
    split
    · have h1 : i + 1 = rows.length := by omega
      rw [h1, Nat.mod_self]
    · rw [Nat.mod_eq_of_lt (by omega)]
  rw [this]

theorem tablePrevious_mod {α : Type} (cols : List String) (rows : List α)
    (i : Nat) (hi : i < rows.length) :
    StatefulTable.previous ⟨some i, cols, rows⟩ =
      some ⟨some ((i + (rows.length - 1)) % rows.length), cols, rows⟩ := by
  have hpos : 0 < rows.length := Nat.lt_of_le_of_lt (Nat.zero_le i) hi
  by_cases h0 : i = 0
  · subst h0
    simp only [StatefulTable.previous, eq_self_iff_true, if_true, usizeSub_one hpos,
      Option.map_some', Option.some.injEq, Nat.zero_add]
    rw [Nat.mod_eq_of_lt (by omega)]
  · simp only [StatefulTable.previous, if_neg h0, Option.some.injEq]
    have : (i + (rows.length - 1)) % rows.length = i - 1 := by
      have h1 : i + (rows.length - 1) = (i - 1) + rows.length := by omega
      rw [h1, Nat.add_mod_right, Nat.mod_eq_of_lt (by omega)]
    rw [this]

theorem tableNext_iter_mod {α : Type} :
    ∀ (k : Nat) (cols : List String) (rows : List α) (i : Nat), i < rows.length →
      iterOpt StatefulTable.next k ⟨some i, cols, rows⟩ =
        some ⟨some ((i + k) % rows.length), cols, rows⟩ := by
  intro k
  induction k with
  | zero =>
    intro cols rows i hi
    simp [iterOpt, Nat.mod_eq_of_lt hi]
  | succ k ih =>
    intro cols rows i hi
    have hpos : 0 < rows.length := Nat.lt_of_le_of_lt (Nat.zero_le i) hi
    simp only [iterOpt]
    rw [tableNext_mod cols rows i hi]
    show iterOpt StatefulTable.next k ⟨some ((i + 1) % rows.length), cols, rows⟩ = _
    rw [ih cols rows ((i + 1) % rows.length) (Nat.mod_lt _ hpos)]
    have : ((i + 1) % rows.length + k) % rows.length = (i + (k + 1)) % rows.length := by
      rw [Nat.mod_add_mod]
      congr 1
      omega
    rw [this]

theorem tablePrevious_iter_mod {α : Type} :
    ∀ (k : Nat) (cols : List String) (rows : List α) (i : Nat), i < rows.length →
      iterOpt StatefulTable.previous k ⟨some i, cols, rows⟩ =
        some ⟨some ((i + k * (rows.length - 1)) % rows.length), cols, rows⟩ := by
  intro k
  induction k with
  | zero =>
    intro cols rows i hi
    simp [iterOpt, Nat.mod_eq_of_lt hi]
  | succ k ih =>
    intro cols rows i hi
    have hpos : 0 < rows.length := Nat.lt_of_le_of_lt (Nat.zero_le i) hi
    simp only [iterOpt]
    rw [tablePrevious_mod cols rows i hi]
    show iterOpt StatefulTable.previous k
        ⟨some ((i + (rows.length - 1)) % rows.length), cols, rows⟩ = _
    rw [ih cols rows ((i + (rows.length - 1)) % rows.length) (Nat.mod_lt _ hpos)]
    have : ((i + (rows.length - 1)) % rows.length + k * (rows.length - 1)) %
          rows.length =
        (i + (k + 1) * (rows.length - 1)) % rows.length := by
      rw [Nat.mod_add_mod]
      congr 1
      ring
    rw [this]

/-! ## Claim C1 -/

/-- C1 (counterexample): on the empty `StatefulList` with no selection,
`next()` SELECTS index 0 (it does not leave `selected = None`), `last()`
also selects index 0 (it delegates to `first()`, which selects
unconditionally), and `previous()` from `Some(0)` evaluates
`items.len() - 1` on the empty list — an underflow panic (`none`).  So
none of the three calls is the claimed no-op. -/
theorem C1_counterexample :
    (⟨none, ([] : List String)⟩ : StatefulList String).next = some ⟨some 0, []⟩ ∧
    (⟨none, ([] : List String)⟩ : StatefulList String).last = ⟨some 0, []⟩ ∧
    (⟨some 0, ([] : List String)⟩ : StatefulList String).previous = none :=
  ⟨rfl, rfl, rfl⟩

/-- C1 (amended): on an EMPTY collection the code behaves as follows —
`next()` and `previous()` with `selected = None` set `selected =
Some(0)` (an index into the empty sequence); `last()` sets `selected =
Some(0)` via `first()`; `next()` with any `Some(i)` and `previous()`
with `Some(0)` evaluate `length - 1`, which underflows (a panic in
debug builds); `previous()` with `Some(i+1)` decrements to `Some(i)`.
`StatefulTable::next`/`previous` behave identically over `rows`. -/
theorem C1_amended {α β : Type} (l : StatefulList α) (t : StatefulTable β)
    (hl : l.items = []) (ht : t.rows = []) :
    (l.selected = none →
      l.next = some { l with selected := some 0 } ∧
      l.previous = some { l with selected := some 0 }) ∧
    (∀ i, l.selected = some i → l.next = none) ∧
    (l.selected = some 0 → l.previous = none) ∧
    (∀ i, l.selected = some (i + 1) → l.previous = some { l with selected := some i }) ∧
    l.last = { l with selected := some 0 } ∧
    (t.selected = none →
      t.next = some { t with selected := some 0 } ∧
      t.previous = some { t with selected := some 0 }) ∧
    (∀ i, t.selected = some i → t.next = none) ∧
    (t.selected = some 0 → t.previous = none) := by
  refine ⟨?_, ?_, ?_, ?_, ?_, ?_, ?_, ?_⟩
  · intro hs
    constructor <;> simp [StatefulList.next, StatefulList.previous, hs]
  · intro i hs
    simp [StatefulList.next, hs, hl, usizeSub]
  · intro hs
    simp [StatefulList.previous, hs, hl, usizeSub]
  · intro i hs
    simp [StatefulList.previous, hs]
  · simp [StatefulList.last, StatefulList.first, hl]
  · intro hs
    constructor <;> simp [StatefulTable.next, StatefulTable.previous, hs]
  · intro i hs
    simp [StatefulTable.next, hs, ht, usizeSub]
  · intro hs
    simp [StatefulTable.previous, hs, ht, usizeSub]

theorem C1_witness :
    (⟨none, ([] : List String)⟩ : StatefulList String).next = some ⟨some 0, []⟩ ∧
    (⟨some 3, ([] : List String)⟩ : StatefulList String).next = none ∧
    (⟨some 0, ["Name"], ([] : List PModel)⟩ : StatefulTable PModel).previous = none :=
  ⟨((C1_amended (⟨none, []⟩ : StatefulList String)
        (⟨none, ["Name"], []⟩ : StatefulTable PModel) rfl rfl).1 rfl).1,
   (C1_amended (⟨some 3, []⟩ : StatefulList String)
        (⟨none, ["Name"], []⟩ : StatefulTable PModel) rfl rfl).2.1 3 rfl,
   (C1_amended (⟨none, []⟩ : StatefulList String)
        (⟨some 0, ["Name"], []⟩ : StatefulTable PModel) rfl rfl).2.2.2.2.2.2.2 rfl⟩

/-! ## Claim C2 -/

/-- C2 (counterexample): `StatefulTable::clear` empties the rows but
leaves `selected` untouched, so clearing a table with an active
selection leaves `selected = Some(0)` referencing a position in an
empty collection; `State::clear_folders` does the same for the folder
list.  This refutes the claim that every operation preserves the
selection invariant. -/
theorem C2_counterexample :
    ((⟨some 0, ["Name"], [⟨"u1", "m1", "Ready"⟩]⟩ : StatefulTable PModel).clearRows).rows
        = [] ∧
    ((⟨some 0, ["Name"], [⟨"u1", "m1", "Ready"⟩]⟩ : StatefulTable PModel).clearRows).selected
        = some 0 ∧
    (({ State.new with
          folder_list := ⟨some 0, [⟨1, "f"⟩]⟩ }).clear_folders).folder_list
        = ⟨some 0, []⟩ :=
  ⟨rfl, rfl, rfl⟩

/-- C2 (amended): on a NON-empty collection whose selection satisfies
the invariant, `next`, `previous`, `first` and `last` succeed and
re-establish the invariant; but the clearing operations
(`StatefulTable::clear`, `State::clear_folders`) empty the items while
leaving `selected` unchanged, so after clearing a collection with an
active selection the invariant is violated (see the counterexample),
and on empty collections the navigation operations themselves select
index 0 (claim C1). -/
theorem C2_amended {α : Type} :
    (∀ l : StatefulList α, l.items ≠ [] → l.InvS →
      l.next.isSome ∧ (∀ l', l.next = some l' → l'.InvS) ∧
      l.previous.isSome ∧ (∀ l', l.previous = some l' → l'.InvS) ∧
      l.first.InvS ∧ l.last.InvS) ∧
    (∀ t : StatefulTable α, t.clearRows.rows = [] ∧ t.clearRows.selected = t.selected) ∧
    (∀ s : State, (s.clear_folders).folder_list.items = [] ∧
      (s.clear_folders).folder_list.selected = s.folder_list.selected) := by
  refine ⟨?_, fun t => ⟨rfl, rfl⟩, fun s => ⟨rfl, rfl⟩⟩
  intro l hne hinv
  obtain ⟨sel, items⟩ := l
  have hne' : items ≠ [] := hne
  have hpos : 0 < items.length := List.length_pos.mpr hne'
  have hlast : (⟨sel, items⟩ : StatefulList α).last = ⟨some (items.length - 1), items⟩ := by
    have hempty : items.isEmpty = false := by
      cases hitems : items with
      | nil => exact absurd hitems hne'
      | cons a as => rfl
    unfold StatefulList.last
    simp only [hempty, Bool.false_eq_true, if_false]
  refine ⟨?_, ?_, ?_, ?_, ?_, ?_⟩
  · cases sel with
    | none => rfl
    | some i =>
      have hi : i < items.length := hinv i rfl
      rw [StatefulList.next_mod items i hi]
      rfl
  · intro l' h
    cases sel with
    | none =>
      rw [show StatefulList.next (⟨none, items⟩ : StatefulList α) =
            some ⟨some 0, items⟩ from rfl] at h
      injection h with h
      subst h
      intro j hj
      injection hj with hj
      show j < items.length
      omega
    | some i =>
      have hi : i < items.length := hinv i rfl
      rw [StatefulList.next_mod items i hi] at h
      injection h with h
      subst h
      intro j hj
      injection hj with hj
      show j < items.length
      have := Nat.mod_lt (i + 1) hpos
      omega
  · cases sel with
    | none => rfl
    | some i =>
      have hi : i < items.length := hinv i rfl
      rw [StatefulList.previous_mod items i hi]
      rfl
  · intro l' h
    cases sel with
    | none =>
      rw [show StatefulList.previous (⟨none, items⟩ : StatefulList α) =
            some ⟨some 0, items⟩ from rfl] at h
      injection h with h
      subst h
      intro j hj
      injection hj with hj
      show j < items.length
      omega
    | some i =>
      have hi : i < items.length := hinv i rfl
      rw [StatefulList.previous_mod items i hi] at h
      injection h with h
      subst h
      intro j hj
      injection hj with hj
      show j < items.length
      have := Nat.mod_lt (i + (items.length - 1)) hpos
      omega
  · intro j hj
    injection hj with hj
    show j < items.length
    omega
  · rw [hlast]
    intro j hj
    injection hj with hj
    show j < items.length
    omega

theorem C2_witness :
    ((⟨some 1, ["a", "b"]⟩ : StatefulList String).next.isSome) ∧
    ((⟨some 1, ["a", "b"]⟩ : StatefulList String).last.InvS) ∧
    ((⟨none, ["Name"], ([] : List PModel)⟩ : StatefulTable PModel).clearRows.rows = []) ∧
    ((State.new.clear_folders).folder_list.selected = State.new.folder_list.selected) :=
  ⟨((@C2_amended String).1 ⟨some 1, ["a", "b"]⟩ (by decide)
      (by intro i h; injection h with h; subst h; decide)).1,
   ((@C2_amended String).1 ⟨some 1, ["a", "b"]⟩ (by decide)
      (by intro i h; injection h with h; subst h; decide)).2.2.2.2.2,
   ((@C2_amended PModel).2.1 ⟨none, ["Name"], []⟩).1,
   ((@C2_amended String).2.2 State.new).2⟩

/-! ## Claim C8 -/

/-- C8 (counterexample): on the two-element list with `selected = None`,
two calls of `next()` end at `Some(1)`, not back at the original `None`
— the first `next()` from `None` selects index 0 rather than cycling,
so cyclic closure fails for the starting selection `None`. -/
theorem C8_counterexample :
    iterOpt StatefulList.next 2 (⟨none, ["a", "b"]⟩ : StatefulList String) =
      some ⟨some 1, ["a", "b"]⟩ ∧
    (⟨some 1, ["a", "b"]⟩ : StatefulList String) ≠ ⟨none, ["a", "b"]⟩ :=
  ⟨rfl, by decide⟩

/-- C8 (amended): for a non-empty collection of length N whose starting
selection is `Some(i)` with `i < N` (i.e. an actual selection satisfying
the invariant), N calls of `next()` return to the original state, and
likewise N calls of `previous()`; both for `StatefulList` and for
`StatefulTable`.  (From the starting selection `None` the closure
fails, see the counterexample.) -/
theorem C8_amended {α β : Type} (l : StatefulList α) (i : Nat) (t : StatefulTable β)
    (j : Nat) (hsel : l.selected = some i) (hi : i < l.items.length)
    (hselt : t.selected = some j) (hj : j < t.rows.length) :
    iterOpt StatefulList.next l.items.length l = some l ∧
    iterOpt StatefulList.previous l.items.length l = some l ∧
    iterOpt StatefulTable.next t.rows.length t = some t ∧
    iterOpt StatefulTable.previous t.rows.length t = some t := by
  obtain ⟨sel, items⟩ := l
  obtain ⟨selt, cols, rows⟩ := t
  simp only at hsel hselt hi hj
  subst hsel
  subst hselt
  refine ⟨?_, ?_, ?_, ?_⟩
  · rw [StatefulList.next_iter_mod items.length items i hi, Nat.add_mod_right,
      Nat.mod_eq_of_lt hi]
  · rw [StatefulList.previous_iter_mod items.length items i hi,
      Nat.add_mul_mod_self_left, Nat.mod_eq_of_lt hi]
  · rw [tableNext_iter_mod rows.length cols rows j hj, Nat.add_mod_right,
      Nat.mod_eq_of_lt hj]
  · rw [tablePrevious_iter_mod rows.length cols rows j hj,
      Nat.add_mul_mod_self_left, Nat.mod_eq_of_lt hj]

theorem C8_witness :
    iterOpt StatefulList.next 3 (⟨some 1, ["a", "b", "c"]⟩ : StatefulList String) =
      some ⟨some 1, ["a", "b", "c"]⟩ ∧
    iterOpt StatefulTable.previous 2
        (⟨some 0, ["Name"], [⟨"u1", "m1", "Ready"⟩, ⟨"u2", "m2", "Ready"⟩]⟩ :
          StatefulTable PModel) =
      some ⟨some 0, ["Name"], [⟨"u1", "m1", "Ready"⟩, ⟨"u2", "m2", "Ready"⟩]⟩ :=
  ⟨(C8_amended (⟨some 1, ["a", "b", "c"]⟩ : StatefulList String) 1
      (⟨some 0, ["Name"], [⟨"u1", "m1", "Ready"⟩, ⟨"u2", "m2", "Ready"⟩]⟩ :
        StatefulTable PModel) 0 rfl (by decide) rfl (by decide)).1,
   (C8_amended (⟨some 1, ["a", "b", "c"]⟩ : StatefulList String) 1
      (⟨some 0, ["Name"], [⟨"u1", "m1", "Ready"⟩, ⟨"u2", "m2", "Ready"⟩]⟩ :
        StatefulTable PModel) 0 rfl (by decide) rfl (by decide)).2.2.2⟩

/-! ## Controller frame lemmas -/

@[simp] theorem change_mode_mode (s : State) (m : InputMode) :
    (s.change_mode m).mode = m := by
  cases m <;> rfl

@[simp] theorem change_mode_prev (s : State) (m : InputMode) :
    (s.change_mode m).previous_mode = s.mode := by
  cases m <;> rfl

@[simp] theorem change_mode_display_help (s : State) (m : InputMode) :
    (s.change_mode m).display_help = s.display_help := by
  cases m <;> rfl

@[simp] theorem change_mode_folder_list (s : State) (m : InputMode) :
    (s.change_mode m).folder_list = s.folder_list := by
  cases m <;> rfl

@[simp] theorem change_mode_models_table (s : State) (m : InputMode) :
    (s.change_mode m).models_table = s.models_table := by
  cases m <;> rfl

@[simp] theorem tell_mode (s : State) (m : String) : (s.tell m).mode = s.mode := rfl

@[simp] theorem tell_prev (s : State) (m : String) :
    (s.tell m).previous_mode = s.previous_mode := rfl

@[simp] theorem tell_display_help (s : State) (m : String) :
    (s.tell m).display_help = s.display_help := rfl

@[simp] theorem tell_folder_list (s : State) (m : String) :
    (s.tell m).folder_list = s.folder_list := rfl

@[simp] theorem tell_models_table (s : State) (m : String) :
    (s.tell m).models_table = s.models_table := rfl

@[simp] theorem tell_status_line (s : State) (m : String) :
    (s.tell m).status_line = s.status_line := rfl

@[simp] theorem tell_api (s : State) (m : String) : (s.tell m).api = s.api := rfl

@[simp] theorem tell_active_tenant (s : State) (m : String) :
    (s.tell m).active_tenant = s.active_tenant := rfl

@[simp] theorem tell_log (s : State) (m : String) : (s.tell m).log = s.log ++ [m] := rfl

@[simp] theorem set_help_mode (s : State) (h : HelpType) :
    (s.set_help h).mode = s.mode := rfl

@[simp] theorem set_help_prev (s : State) (h : HelpType) :
    (s.set_help h).previous_mode = s.previous_mode := rfl

@[simp] theorem hide_help_mode (s : State) : s.hide_help.mode = s.mode := rfl

@[simp] theorem hide_help_prev (s : State) :
    s.hide_help.previous_mode = s.previous_mode := rfl

/-! ## Which steps can end in `Help` mode -/

/-- The `Enter` handler of `Folder` mode never changes the mode. -/
theorem folderEnter_mode {ext : Externals} {s s' : State}
    (h : folderEnter ext s = .cont s') : s'.mode = s.mode := by
  unfold folderEnter at h
  cases hsel : s.folder_list.selected with
  | none =>
    simp only [hsel] at h
    simp only [StepResult.cont.injEq] at h
    subst h
    simp
  | some i =>
    simp only [hsel] at h
    cases hget : s.folder_list.items.get? i with
    | none =>
      simp only [hget] at h
      simp only [StepResult.cont.injEq] at h
      subst h
      simp
    | some f =>
      simp only [hget] at h
      cases hapi : s.api with
      | none =>
        simp only [hapi, tell_api] at h
        simp only [StepResult.cont.injEq] at h
        subst h
        simp
      | some api =>
        simp only [hapi, tell_api] at h
        cases hres : ext.listAllModels api [f.id] with
        | ok ms =>
          simp only [hres] at h
          simp only [StepResult.cont.injEq] at h
          subst h
          simp
        | error e =>
          simp only [hres] at h
          simp only [StepResult.cont.injEq] at h
          subst h
          simp

/-- The `Enter` handler of `Tenant` mode ends in `Normal` mode (after a
completed selection) or leaves the mode unchanged (no selection). -/
theorem tenantEnter_mode {ext : Externals} {s s' : State}
    (h : tenantEnter ext s = some (.cont s')) :
    s'.mode = .Normal ∨ s'.mode = s.mode := by
  unfold tenantEnter at h
  cases hsel : s.tenants.selected with
  | none =>
    simp only [hsel, Option.some.injEq, StepResult.cont.injEq] at h
    subst h
    right
    simp
  | some i =>
    simp only [hsel] at h
    cases hget : s.tenants.items.get? i with
    | none =>
      simp only [hget] at h
      exact Option.noConfusion h
    | some item =>
      simp only [hget, State.initialize_service, tell_active_tenant] at h
      cases hinv : ext.invalidateToken item with
      | error e =>
        simp only [hinv] at h
        exact Option.noConfusion h
      | ok u =>
        simp only [hinv] at h
        cases hcfg : ext.clientConfig item with
        | ok cfg =>
          simp only [hcfg] at h
          cases hlist : ext.getListOfFolders ⟨cfg.baseUrl, item, cfg.accessToken⟩ with
          | ok fs =>
            simp only [hlist, Option.some.injEq, StepResult.cont.injEq] at h
            subst h
            left
            simp
          | error e =>
            simp only [hlist, Option.some.injEq, StepResult.cont.injEq] at h
            subst h
            left
            simp
        | error cause =>
          simp only [hcfg] at h
          cases hapi : s.api with
          | none =>
            simp only [hapi, tell_api, Option.some.injEq, StepResult.cont.injEq] at h
            subst h
            left
            simp
          | some api =>
            simp only [hapi, tell_api] at h
            cases hlist : ext.getListOfFolders api with
            | ok fs =>
              simp only [hlist, Option.some.injEq, StepResult.cont.injEq] at h
              subst h
              left
              simp
            | error e =>
              simp only [hlist, Option.some.injEq, StepResult.cont.injEq] at h
              subst h
              left
              simp

/-- The `Enter` handler of `Model` mode never changes the mode. -/
theorem modelEnter_mode {s s' : State} (h : modelEnter s = some (.cont s')) :
    s'.mode = s.mode := by
  unfold modelEnter at h
  cases hsel : s.models_table.selected with
  | none =>
    simp only [hsel, Option.some.injEq, StepResult.cont.injEq] at h
    subst h
    simp
  | some i =>
    simp only [hsel] at h
    cases hget : s.models_table.rows.get? i with
    | none =>
      simp only [hget] at h
      exact Option.noConfusion h
    | some row =>
      simp only [hget, Option.some.injEq, StepResult.cont.injEq] at h
      subst h
      simp

theorem stepNormal_helpOk {s s' : State} (k : KeyEvent) (hs : s.mode ≠ .Help)
    (h : stepNormal s k = .cont s') (hh : s'.mode = .Help) :
    s'.previous_mode = s.mode := by
  unfold stepNormal at h
  split_ifs at h <;>
    first
    | exact StepResult.noConfusion h
    | (simp only [StepResult.cont.injEq] at h; subst h; simp_all)

theorem stepSearch_helpOk {ext : Externals} {s s' : State} (k : KeyEvent)
    (hs : s.mode ≠ .Help) (h : stepSearch ext s k = some (.cont s'))
    (hh : s'.mode = .Help) : s'.previous_mode = s.mode := by
  unfold stepSearch at h
  split_ifs at h <;>
    first
    | (simp only [Option.some.injEq, StepResult.cont.injEq] at h; subst h; simp_all)
    | (cases hsf : s.search_field with
       | nil =>
         rw [hsf] at h
         exact Option.noConfusion h
       | cons t rest =>
         rw [hsf] at h
         simp only [Option.some.injEq, StepResult.cont.injEq] at h
         subst h
         simp_all)

theorem stepFolder_helpOk {ext : Externals} {s s' : State} (k : KeyEvent)
    (hs : s.mode ≠ .Help) (h : stepFolder ext s k = some (.cont s'))
    (hh : s'.mode = .Help) : s'.previous_mode = s.mode := by
  unfold stepFolder at h
  split_ifs at h <;>
    first
    | (simp only [Option.some.injEq, StepResult.cont.injEq] at h; subst h; simp_all)
    | (simp only [Option.some.injEq] at h
       exact absurd ((folderEnter_mode h).symm.trans hh) hs)
    | (cases hopt : s.folder_list.previous with
       | none =>
         rw [hopt] at h
         exact Option.noConfusion h
       | some l =>
         rw [hopt] at h
         simp only [Option.map_some', Option.some.injEq, StepResult.cont.injEq] at h
         subst h
         simp_all)
    | (cases hopt : s.folder_list.next with
       | none =>
         rw [hopt] at h
         exact Option.noConfusion h
       | some l =>
         rw [hopt] at h
         simp only [Option.map_some', Option.some.injEq, StepResult.cont.injEq] at h
         subst h
         simp_all)

theorem stepModel_helpOk {s s' : State} (k : KeyEvent) (hs : s.mode ≠ .Help)
    (h : stepModel s k = some (.cont s')) (hh : s'.mode = .Help) :
    s'.previous_mode = s.mode := by
  unfold stepModel at h
  split_ifs at h <;>
    first
    | (simp only [Option.some.injEq, StepResult.cont.injEq] at h; subst h; simp_all)
    | (exact absurd ((modelEnter_mode h).symm.trans hh) hs)
    | (cases hopt : s.models_table.previous with
       | none =>
         rw [hopt] at h
         exact Option.noConfusion h
       | some l =>
         rw [hopt] at h
         simp only [Option.map_some', Option.some.injEq, StepResult.cont.injEq] at h
         subst h
         simp_all)
    | (cases hopt : s.models_table.next with
       | none =>
         rw [hopt] at h
         exact Option.noConfusion h
       | some l =>
         rw [hopt] at h
         simp only [Option.map_some', Option.some.injEq, StepResult.cont.injEq] at h
         subst h
         simp_all)

theorem stepMatch_helpOk {s s' : State} (k : KeyEvent) (hs : s.mode ≠ .Help)
    (h : stepMatch s k = .cont s') (hh : s'.mode = .Help) :
    s'.previous_mode = s.mode := by
  unfold stepMatch at h
  split_ifs at h <;> (simp only [StepResult.cont.injEq] at h; subst h; simp_all)

theorem stepTenant_helpOk {ext : Externals} {s s' : State} (k : KeyEvent)
    (hs : s.mode ≠ .Help) (h : stepTenant ext s k = some (.cont s'))
    (hh : s'.mode = .Help) : s'.previous_mode = s.mode := by
  unfold stepTenant at h
  split_ifs at h <;>
    first
    | (simp only [Option.some.injEq, StepResult.cont.injEq] at h; subst h; simp_all)
    | (exact (tenantEnter_mode h).elim
        (fun hn => absurd (hn.symm.trans hh) (by decide))
        (fun hn => absurd (hn.symm.trans hh) hs))
    | (cases hopt : s.tenants.previous with
       | none =>
         rw [hopt] at h
         exact Option.noConfusion h
       | some l =>
         rw [hopt] at h
         simp only [Option.map_some', Option.some.injEq, StepResult.cont.injEq] at h
         subst h
         simp_all)
    | (cases hopt : s.tenants.next with
       | none =>
         rw [hopt] at h
         exact Option.noConfusion h
       | some l =>
         rw [hopt] at h
         simp only [Option.map_some', Option.some.injEq, StepResult.cont.injEq] at h
         subst h
         simp_all)

/-- Every transition that ends a step in `Help` mode came from a
help-key arm, which records the pre-step mode in `previous_mode`. -/
theorem step_into_help {ext : Externals} {s s' : State} {e : Event}
    (h : step ext s e = some (.cont s')) (hs : s.mode ≠ .Help)
    (hh : s'.mode = .Help) : s'.previous_mode = s.mode := by
  cases e with
  | other =>
    simp only [step, Option.some.injEq, StepResult.cont.injEq] at h
    subst h
    exact absurd hh hs
  | key k =>
    unfold step at h
    cases hm : s.mode
    all_goals simp only [hm] at h
    case Normal =>
      simp only [Option.some.injEq] at h
      exact hm ▸ stepNormal_helpOk k hs h hh
    case Search => exact hm ▸ stepSearch_helpOk k hs h hh
    case Folder => exact hm ▸ stepFolder_helpOk k hs h hh
    case Model => exact hm ▸ stepModel_helpOk k hs h hh
    case Match =>
      simp only [Option.some.injEq] at h
      exact hm ▸ stepMatch_helpOk k hs h hh
    case Help => exact absurd hm hs
    case Tenant => exact hm ▸ stepTenant_helpOk k hs h hh

/-- In `Help` mode any key event hides the help and restores
`previous_mode`. -/
theorem step_from_help (ext : Externals) {s : State} (k : KeyEvent)
    (hs : s.mode = .Help) :
    step ext s (.key k) = some (.cont ((s.hide_help).change_mode s.previous_mode)) := by
  unfold step
  rw [hs]

/-! ## Claim C3 -/

/-- C3 (confirmed): if handling an event takes the controller from a
non-`Help` mode `m` into `Help`, then handling any subsequent key event
(under arbitrary external behaviour) yields a state whose mode is
exactly `m` and whose `display_help` flag is cleared. -/
theorem C3_help_restores_mode (ext ext' : Externals) (s s' : State) (e : Event)
    (k : KeyEvent) (henter : step ext s e = some (.cont s'))
    (hnot : s.mode ≠ .Help) (hhelp : s'.mode = .Help) :
    ∃ s'', step ext' s' (.key k) = some (.cont s'') ∧
      s''.mode = s.mode ∧ s''.display_help = false := by
  refine ⟨(s'.hide_help).change_mode s'.previous_mode, step_from_help ext' k hhelp,
    ?_, ?_⟩
  · rw [change_mode_mode]
    exact step_into_help henter hnot hhelp
  · rw [change_mode_display_help]
    rfl

theorem C3_witness :
    ∃ s'', step ext0 (afterCont ext0 (initState ["acme"]) keyH) (.key ⟨.Char 'x', KeyMods.noMods⟩) =
        some (.cont s'') ∧
      s''.mode = (initState ["acme"]).mode ∧ s''.display_help = false :=
  C3_help_restores_mode ext0 ext0 (initState ["acme"])
    (afterCont ext0 (initState ["acme"]) keyH) keyH ⟨.Char 'x', KeyMods.noMods⟩
    rfl (by decide) rfl

/-! ## Claim C4 -/

/-- Handling one event preserves the weakened invariant "while in
`Help` mode, `previous_mode` is not `Help`". -/
theorem step_preserves_prevInv {ext : Externals} {s s' : State} {e : Event}
    (h : step ext s e = some (.cont s'))
    (hi : s.mode = .Help → s.previous_mode ≠ .Help) :
    s'.mode = .Help → s'.previous_mode ≠ .Help := by
  intro hh
  by_cases hs : s.mode = .Help
  · cases e with
    | other =>
      simp only [step, Option.some.injEq, StepResult.cont.injEq] at h
      subst h
      exact hi hh
    | key k =>
      rw [step_from_help ext k hs] at h
      simp only [Option.some.injEq, StepResult.cont.injEq] at h
      subst h
      rw [change_mode_mode] at hh
      exact absurd hh (hi hs)
  · rw [step_into_help h hs hh]
    exact hs

/-- C4 (amended): in every reachable state, WHILE `mode = Help` the
`previous_mode` is not `Help` — which is the property that actually
excludes nested help-from-help.  The claim's stronger invariant
("`previous_mode` is never `Help` in any reachable state") is false:
leaving `Help` calls `change_mode(previous_mode)`, which saves the
current mode — `Help` — into `previous_mode` (see the
counterexample). -/
theorem C4_prev_not_help_in_help {s : State} (h : Reachable s) :
    s.mode = .Help → s.previous_mode ≠ .Help := by
  induction h with
  | init keys =>
    intro hm
    rw [show (initState keys).mode = InputMode.Tenant from rfl] at hm
    exact absurd hm (by decide)
  | step ext e hr hstep ih => exact step_preserves_prevInv hstep ih

theorem C4_witness :
    (afterCont ext0 (initState ["acme"]) keyH).previous_mode ≠ .Help :=
  C4_prev_not_help_in_help
    (Reachable.step ext0 keyH (Reachable.init ["acme"]) rfl) rfl

/-- C4 (counterexample): from the initial state (`Tenant` mode), press
the help key (enter `Help`), then any key (leave `Help`): the resulting
state is reachable and has `previous_mode = Help`, because the `Help`
arm's `change_mode(previous_mode)` stores the current mode (`Help`)
into `previous_mode`. -/
theorem C4_counterexample :
    Reachable (afterCont ext0 (afterCont ext0 (initState ["acme"]) keyH) keyX) ∧
    (afterCont ext0 (afterCont ext0 (initState ["acme"]) keyH) keyX).previous_mode
      = .Help := by
  constructor
  · exact Reachable.step ext0 keyX
      (Reachable.step ext0 keyH (Reachable.init ["acme"]) rfl) rfl
  · rfl

/-! ## Claim C9 -/

/-- C9 (amended): in `Folder` mode, Enter with no folder selected
leaves every field of the state unchanged except that `active_folder`
is cleared, the models table rows are cleared (so the model collection
is left empty), and the no-selection condition is reported to the LOG
(`warn!("No folder selected")`); in particular the mode stays `Folder`
and the STATUS LINE is left unchanged — the claim's "sets the status
line" does not happen (see the counterexample). -/
theorem C9_enter_without_selection (ext : Externals) (s : State) (mods : KeyMods)
    (hmode : s.mode = .Folder) (hsel : s.folder_list.selected = none) :
    step ext s (.key ⟨.Enter, mods⟩) =
      some (.cont (({ s with
          active_folder := none,
          models_table := s.models_table.clearRows }).tell "No folder selected")) := by
  have h1 : step ext s (.key ⟨.Enter, mods⟩) = some (folderEnter ext s) := by
    unfold step
    rw [hmode]
    rfl
  rw [h1]
  unfold folderEnter
  rw [hsel]

theorem C9_witness :
    step ext0 stC9 (.key ⟨.Enter, KeyMods.noMods⟩) =
      some (.cont (({ stC9 with
          active_folder := none,
          models_table := stC9.models_table.clearRows }).tell "No folder selected")) :=
  C9_enter_without_selection ext0 stC9 KeyMods.noMods rfl rfl

/-- C9 (counterexample): with the Folder-mode hint in the status line,
Enter with no selection reports "No folder selected" only to the log;
the status line still holds the generic Folder hint afterwards — the
claim's "sets the status line to report the no-selection condition" is
false (while the model collection does stay empty and the mode stays
`Folder`). -/
theorem C9_counterexample :
    (afterCont ext0 stC9 keyEnter).status_line = stC9.status_line ∧
    stC9.status_line =
      "Press <Esc> to return to Normal mode, <h> for help, or <Tab> for Model mode" ∧
    (afterCont ext0 stC9 keyEnter).log = stC9.log ++ ["No folder selected"] ∧
    (afterCont ext0 stC9 keyEnter).models_table.rows = [] ∧
    (afterCont ext0 stC9 keyEnter).mode = .Folder :=
  ⟨rfl, rfl, rfl, rfl, rfl⟩

/-! ## Claim C5 -/

/-- C5 (amended): when a backend call returns an error the handler
reports it to the log and leaves the affected collection UNCHANGED
rather than clearing it (the collection is cleared and repopulated only
on success); the mode transition is the same as on success (Folder-mode
Enter leaves the mode `Folder`; Tenant-mode Enter proceeds to `Normal`
either way), and the loop continues (the step yields a continuation,
never a quit or a panic).  Three cases: model listing failure on
Folder-mode Enter (stated as a full-state equation: only
`active_folder` and the log change); folder listing failure on
Tenant-mode Enter after a successful session setup; and session setup
(configuration) failure with no previous API session. -/
theorem C5_backend_error_behaviour :
    (∀ (ext : Externals) (s : State) (mods : KeyMods) (i : Nat) (f : Folder)
        (api : Api) (msg : String),
      s.mode = .Folder → s.folder_list.selected = some i →
      s.folder_list.items.get? i = some f → s.api = some api →
      ext.listAllModels api [f.id] = .error msg →
      step ext s (.key ⟨.Enter, mods⟩) =
        some (.cont { s with
          active_folder := some f.name,
          log := s.log ++
            ["Selected folder [" ++ toString f.id ++ "] \"" ++ f.name ++ "\"",
             "Reading the list of models for folder " ++ toString f.id ++ "...",
             "Error reading models: " ++ msg] })) ∧
    (∀ (ext : Externals) (s : State) (mods : KeyMods) (i : Nat) (tname : String)
        (cfg : ApiConfig) (msg : String),
      s.mode = .Tenant → s.tenants.selected = some i →
      s.tenants.items.get? i = some tname →
      ext.invalidateToken tname = .ok () → ext.clientConfig tname = .ok cfg →
      ext.getListOfFolders ⟨cfg.baseUrl, tname, cfg.accessToken⟩ = .error msg →
      ∃ s', step ext s (.key ⟨.Enter, mods⟩) = some (.cont s') ∧
        s'.folder_list = s.folder_list ∧ s'.mode = .Normal ∧
        ("Failed to read the list of fodlers: " ++ msg) ∈ s'.log) ∧
    (∀ (ext : Externals) (s : State) (mods : KeyMods) (i : Nat) (tname : String)
        (cause : Option String),
      s.mode = .Tenant → s.tenants.selected = some i →
      s.tenants.items.get? i = some tname →
      ext.invalidateToken tname = .ok () → ext.clientConfig tname = .error cause →
      s.api = none →
      ∃ s', step ext s (.key ⟨.Enter, mods⟩) = some (.cont s') ∧
        s'.folder_list = s.folder_list ∧ s'.mode = .Normal ∧
        ("Unable to connect to Physna, because of: " ++
          PtuiError.msg (.configurationError cause)) ∈ s'.log ∧
        "No connection with Physna" ∈ s'.log) := by
  refine ⟨?_, ?_, ?_⟩
  · intro ext s mods i f api msg hmode hsel hget hapi herr
    have h1 : step ext s (.key ⟨.Enter, mods⟩) = some (folderEnter ext s) := by
      unfold step
      rw [hmode]
      rfl
    rw [h1]
    simp only [folderEnter, hsel, hget, tell_api, hapi, herr, State.tell]
    simp [List.append_assoc]
  · intro ext s mods i tname cfg msg hmode hsel hget hinv hcfg hlist
    have h1 : step ext s (.key ⟨.Enter, mods⟩) = tenantEnter ext s := by
      unfold step
      rw [hmode]
      rfl
    obtain ⟨r, hstep0⟩ : ∃ r, tenantEnter ext s = r := ⟨_, rfl⟩
    have hstep := hstep0
    unfold tenantEnter at hstep
    simp only [hsel] at hstep
    simp only [hget, State.initialize_service, tell_active_tenant] at hstep
    simp only [hinv] at hstep
    simp only [hcfg] at hstep
    simp only [tell_api] at hstep
    simp only [hlist] at hstep
    subst hstep
    rw [h1, hstep0]
    refine ⟨_, rfl, ?_, ?_, ?_⟩
    · simp
    · simp
    · simp [State.change_mode, State.tell, List.mem_append]
  · intro ext s mods i tname cause hmode hsel hget hinv hcfg hapi
    have h1 : step ext s (.key ⟨.Enter, mods⟩) = tenantEnter ext s := by
      unfold step
      rw [hmode]
      rfl
    obtain ⟨r, hstep0⟩ : ∃ r, tenantEnter ext s = r := ⟨_, rfl⟩
    have hstep := hstep0
    unfold tenantEnter at hstep
    simp only [hsel] at hstep
    simp only [hget, State.initialize_service, tell_active_tenant] at hstep
    simp only [hinv] at hstep
    simp only [hcfg] at hstep
    simp only [tell_api, hapi] at hstep
    subst hstep
    rw [h1, hstep0]
    refine ⟨_, rfl, ?_, ?_, ?_, ?_⟩
    · simp
    · simp
    · simp [State.change_mode, State.tell, List.mem_append]
    · simp [State.change_mode, State.tell, List.mem_append]

theorem C5_witness :
    (step ext0 stC5 (.key ⟨.Enter, KeyMods.noMods⟩) =
      some (.cont { stC5 with
        active_folder := some "fold",
        log := stC5.log ++
          ["Selected folder [" ++ toString (7 : Nat) ++ "] \"" ++ "fold" ++ "\"",
           "Reading the list of models for folder " ++ toString (7 : Nat) ++ "...",
           "Error reading models: " ++ "offline"] })) ∧
    (∃ s', step extB stC5T (.key ⟨.Enter, KeyMods.noMods⟩) = some (.cont s') ∧
      s'.folder_list = stC5T.folder_list ∧ s'.mode = .Normal ∧
      ("Failed to read the list of fodlers: " ++ "offline") ∈ s'.log) ∧
    (∃ s', step ext0 stC5T (.key ⟨.Enter, KeyMods.noMods⟩) = some (.cont s') ∧
      s'.folder_list = stC5T.folder_list ∧ s'.mode = .Normal ∧
      ("Unable to connect to Physna, because of: " ++
        PtuiError.msg (.configurationError none)) ∈ s'.log ∧
      "No connection with Physna" ∈ s'.log) :=
  ⟨C5_backend_error_behaviour.1 ext0 stC5 KeyMods.noMods 0 ⟨7, "fold"⟩
      ⟨"https://api.example", "acme", "token"⟩ "offline" rfl rfl rfl rfl rfl,
   C5_backend_error_behaviour.2.1 extB stC5T KeyMods.noMods 0 "acme"
      ⟨"https://api.example", "token"⟩ "offline" rfl rfl rfl rfl rfl rfl,
   C5_backend_error_behaviour.2.2 ext0 stC5T KeyMods.noMods 0 "acme" none
      rfl rfl rfl rfl rfl rfl⟩

/-- C5 (counterexample): in `Folder` mode with one row already in the
models table, Enter on a selected folder with the backend failing
leaves the models table with its old row — the affected collection is
NOT cleared, refuting that part of the claim; similarly the folder list
survives a folder-listing failure on Tenant-mode Enter. -/
theorem C5_counterexample :
    step ext0 stC5 keyEnter = some (.cont (afterCont ext0 stC5 keyEnter)) ∧
    (afterCont ext0 stC5 keyEnter).models_table.rows = [⟨"u1", "m1", "Ready"⟩] ∧
    (afterCont ext0 stC5 keyEnter).models_table.rows ≠ [] ∧
    (afterCont extB stC5T keyEnter).folder_list = stC5T.folder_list ∧
    stC5T.folder_list.items ≠ [] :=
  ⟨rfl, rfl, by decide, rfl, by decide⟩
